import Mathlib

set_option linter.unusedSectionVars false

/-!
# Grid9 coordinate compression: a shallow embedding

This file embeds the Rust sources of the Grid9 repository
(`src/rust/src/uniform_precision_compressor.rs`, `src/rust/src/coordinate_operations.rs`,
`src/rust/src/lib.rs`) in Lean 4 and proves properties of the embedding.

Modelling conventions:
* `f64` values are modelled as elements of a linear ordered field with a floor
  (instantiated at `ℚ` for the exact bit-level claims — every `f64` is a
  rational — and at `ℝ` where the code uses transcendental functions).
  Floating-point rounding of the field operations is idealised as exact
  arithmetic.
* Rust strings are modelled as `List Char` (the sequence of Unicode scalar
  values of the UTF-8 string).  Rust's `str::len` counts *bytes*, which is
  modelled by `utf8Len`; byte-indexed slicing `&s[i..j]` is modelled by
  `sliceBytes`, which returns `none` exactly when the Rust code would panic
  (a byte index that is not a character boundary).
* Fallible Rust functions (`Result<T, Grid9Error>`) return `Except`.
  A Rust panic is modelled by `Option` (`none` = panic).
-/

namespace Grid9

/-- `Grid9Error` from `lib.rs`.  The scalar type of the carried coordinate
value is a parameter (`f64` in the source). -/
inductive Grid9Error (α : Type) where
  | InvalidLatitude (v : α)
  | InvalidLongitude (v : α)
  | InvalidLength (n : ℕ)
  | InvalidCharacter (c : Char)
  | EmptyInput
  deriving DecidableEq

/-- `BASE32_ALPHABET` from `uniform_precision_compressor.rs`:
the 32 symbols `0-9` and the uppercase letters without `I`, `L`, `O`, `U`. -/
def BASE32_ALPHABET : List Char :=
  ['0', '1', '2', '3', '4', '5', '6', '7', '8', '9',
   'A', 'B', 'C', 'D', 'E', 'F', 'G', 'H', 'J', 'K',
   'M', 'N', 'P', 'Q', 'R', 'S', 'T', 'V', 'W', 'X', 'Y', 'Z']

/-- `LAT_BITS` constant. -/
def LAT_BITS : ℕ := 22

/-- `LON_BITS` constant. -/
def LON_BITS : ℕ := 23

/-- `LAT_MAX = (1 << LAT_BITS) - 1`. -/
def LAT_MAX : ℕ := 2 ^ LAT_BITS - 1

/-- `LON_MAX = (1 << LON_BITS) - 1`. -/
def LON_MAX : ℕ := 2 ^ LON_BITS - 1

/-- `EARTH_RADIUS_M` constant. -/
def EARTH_RADIUS_M : ℝ := 6371000

/-! ## Byte-level string primitives

Rust `str::len` counts UTF-8 bytes and `&s[i..j]` slices at byte offsets,
panicking when an offset is not a character boundary. -/

/-- The UTF-8 byte length of a character sequence (Rust `str::len`). -/
def utf8Len (s : List Char) : ℕ := (s.map Char.utf8Size).sum

/-- The characters occupying the first `n` bytes, or `none` when byte offset
`n` does not fall on a character boundary (the Rust slicing panic). -/
def takeBytes : ℕ → List Char → Option (List Char)
  | 0, _ => some []
  | _ + 1, [] => none
  | n + 1, c :: rest =>
    if c.utf8Size ≤ n + 1 then (takeBytes (n + 1 - c.utf8Size) rest).map (c :: ·)
    else none

/-- The characters after the first `n` bytes, or `none` when byte offset `n`
does not fall on a character boundary. -/
def dropBytes : ℕ → List Char → Option (List Char)
  | 0, s => some s
  | _ + 1, [] => none
  | n + 1, c :: rest =>
    if c.utf8Size ≤ n + 1 then dropBytes (n + 1 - c.utf8Size) rest
    else none

/-- Rust `&s[i..j]` (with `i ≤ j`): `none` models the boundary panic. -/
def sliceBytes (i j : ℕ) (s : List Char) : Option (List Char) :=
  (dropBytes i s).bind (takeBytes (j - i))

/-! ## Validator / Formatter -/

/-- `format_for_humans` from `uniform_precision_compressor.rs`.
`encoded.len() != 9` is a byte-length test; the three slices
`&encoded[0..3]`, `&encoded[3..6]`, `&encoded[6..9]` are byte slices.
The result is `none` exactly when the Rust code panics (a 9-byte input
whose byte offsets 3 or 6 are inside a multi-byte character). -/
def format_for_humans (encoded : List Char) : Option (List Char) :=
  if utf8Len encoded ≠ 9 then some encoded
  else
    match sliceBytes 0 3 encoded, sliceBytes 3 6 encoded, sliceBytes 6 9 encoded with
    | some a, some b, some c => some (a ++ '-' :: b ++ '-' :: c)
    | _, _, _ => none

/-- `remove_formatting`: delete every dash. -/
def remove_formatting (formatted : List Char) : List Char :=
  formatted.filter (fun c => c ≠ '-')

/-! ## Codec -/

section Codec

variable {α : Type} [LinearOrderedField α] [FloorRing α]

/-- `validate_coordinates` from `uniform_precision_compressor.rs`:
latitude is checked first. -/
def validate_coordinates (latitude longitude : α) : Except (Grid9Error α) Unit :=
  if ¬(-90 ≤ latitude ∧ latitude ≤ 90) then .error (.InvalidLatitude latitude)
  else if ¬(-180 ≤ longitude ∧ longitude ≤ 180) then .error (.InvalidLongitude longitude)
  else .ok ()

/-- `BASE32_ALPHABET[index] as char` for a base-32 digit. -/
def alphaChar (d : ℕ) : Char := BASE32_ALPHABET.getD d '0'

/-- The digit-emission loop of `encode`: `k` iterations of
"extract the low 5 bits of `temp`, prepend its symbol, shift `temp` right by 5". -/
def encodeDigits (temp : ℕ) : ℕ → List Char
  | 0 => []
  | k + 1 => encodeDigits (temp >>> 5) k ++ [alphaChar (temp &&& 0x1F)]

/-- `encode` from `uniform_precision_compressor.rs`.
The quantisation `(norm * MAX as f64) as u64` truncates toward zero and
saturates at 0 for negative values, which on `norm ≥ 0` is `Int.toNat ∘ Int.floor`;
`.min(MAX)` is the clamp guarding the upper boundary.
In the human-readable branch `format_for_humans` cannot panic (the compact
result is nine one-byte characters), so the `getD` default is unreachable. -/
def encode (latitude longitude : α) (human_readable : Bool) :
    Except (Grid9Error α) (List Char) :=
  match validate_coordinates latitude longitude with
  | .error e => .error e
  | .ok _ =>
    let norm_lat := (latitude + 90) / 180
    let norm_lon := (longitude + 180) / 360
    let lat_bits := min (⌊norm_lat * ((LAT_MAX : ℕ) : α)⌋.toNat) LAT_MAX
    let lon_bits := min (⌊norm_lon * ((LON_MAX : ℕ) : α)⌋.toNat) LON_MAX
    let packed := (lat_bits <<< LON_BITS) ||| lon_bits
    let result := encodeDigits packed 9
    if human_readable then .ok ((format_for_humans result).getD result)
    else .ok result

/-- `BASE32_ALPHABET.iter().position(|&b| b as char == ch)`. -/
def alphaIndex (c : Char) : Option ℕ :=
  BASE32_ALPHABET.findIdx? (fun b => b = c)

/-- The character loop of `validate_encoded_string`: fails with the first
character not in the alphabet, scanning left to right. -/
def checkChars : List Char → Except (Grid9Error α) Unit
  | [] => .ok ()
  | c :: rest =>
    if c ∈ BASE32_ALPHABET then checkChars rest
    else .error (.InvalidCharacter c)

/-- `validate_encoded_string` from `uniform_precision_compressor.rs`;
`encoded.len()` is the byte length. -/
def validate_encoded_string (encoded : List Char) : Except (Grid9Error α) Unit :=
  if encoded = [] then .error .EmptyInput
  else if utf8Len encoded ≠ 9 then .error (.InvalidLength (utf8Len encoded))
  else checkChars encoded

/-- The base-32 folding loop of `decode`:
`packed = (packed << 5) | position(ch)`, failing on a character that has no
alphabet position (unreachable after validation). -/
def packChars : List Char → ℕ → Except (Grid9Error α) ℕ
  | [], packed => .ok packed
  | c :: rest, packed =>
    match alphaIndex c with
    | some pos => packChars rest ((packed <<< 5) ||| pos)
    | none => .error (.InvalidCharacter c)

/-- `decode` from `uniform_precision_compressor.rs`. -/
def decode (encoded : List Char) : Except (Grid9Error α) (α × α) :=
  let clean_encoded := remove_formatting encoded
  match (validate_encoded_string clean_encoded : Except (Grid9Error α) Unit) with
  | .error e => .error e
  | .ok _ =>
    match (packChars clean_encoded 0 : Except (Grid9Error α) ℕ) with
    | .error e => .error e
    | .ok packed =>
      let lon_bits := packed &&& LON_MAX
      let lat_bits := (packed >>> LON_BITS) &&& LAT_MAX
      let norm_lat := ((lat_bits : ℕ) : α) / ((LAT_MAX : ℕ) : α)
      let norm_lon := ((lon_bits : ℕ) : α) / ((LON_MAX : ℕ) : α)
      .ok (norm_lat * 180 - 90, norm_lon * 360 - 180)

end Codec

/-! ## Metrics -/

/-- `f64::atan2(y, x)`: the angle of the point `(x, y)`. -/
noncomputable def atan2 (y x : ℝ) : ℝ :=
  if 0 < x then Real.arctan (y / x)
  else if x < 0 then
    if 0 ≤ y then Real.arctan (y / x) + Real.pi else Real.arctan (y / x) - Real.pi
  else
    if 0 < y then Real.pi / 2 else if y < 0 then -(Real.pi / 2) else 0

/-- `haversine_distance` from `uniform_precision_compressor.rs`;
`x.to_radians()` is `x * (π / 180)`. -/
noncomputable def haversine_distance (lat1 lon1 lat2 lon2 : ℝ) : ℝ :=
  let d_lat := (lat2 - lat1) * (Real.pi / 180)
  let d_lon := (lon2 - lon1) * (Real.pi / 180)
  let a := Real.sin (d_lat / 2) ^ 2 +
    Real.cos (lat1 * (Real.pi / 180)) * Real.cos (lat2 * (Real.pi / 180)) *
      Real.sin (d_lon / 2) ^ 2
  let c := 2 * atan2 (Real.sqrt a) (Real.sqrt (1 - a))
  EARTH_RADIUS_M * c

/-- `calculate_distance`: decode both tokens, propagating failures, then
apply the haversine formula. -/
noncomputable def calculate_distance (encoded1 encoded2 : List Char) :
    Except (Grid9Error ℝ) ℝ :=
  match (decode encoded1 : Except (Grid9Error ℝ) (ℝ × ℝ)) with
  | .error e => .error e
  | .ok (lat1, lon1) =>
    match (decode encoded2 : Except (Grid9Error ℝ) (ℝ × ℝ)) with
    | .error e => .error e
    | .ok (lat2, lon2) => .ok (haversine_distance lat1 lon1 lat2 lon2)

/-- `PrecisionInfo` record. -/
structure PrecisionInfo where
  lat_error_m : ℝ
  lon_error_m : ℝ
  total_error_m : ℝ

/-- `get_actual_precision` from `uniform_precision_compressor.rs`;
the divisors are `(1u64 << LAT_BITS) as f64` and `(1u64 << LON_BITS) as f64`. -/
noncomputable def get_actual_precision (latitude longitude : ℝ) :
    Except (Grid9Error ℝ) PrecisionInfo :=
  match validate_coordinates latitude longitude with
  | .error e => .error e
  | .ok _ =>
    let lat_precision := (180 : ℝ) / ((2 ^ LAT_BITS : ℕ) : ℝ)
    let lat_error_m := lat_precision * 111320
    let lon_precision := (360 : ℝ) / ((2 ^ LON_BITS : ℕ) : ℝ)
    let lon_error_m := lon_precision * 111320 * Real.cos (latitude * (Real.pi / 180))
    let total_error_m := Real.sqrt (lat_error_m * lat_error_m + lon_error_m * lon_error_m)
    .ok ⟨lat_error_m, lon_error_m, total_error_m⟩

/-! ## Batch / spatial utilities (`coordinate_operations.rs`) -/

/-- `Coordinate` struct. -/
structure Coordinate (α : Type) where
  lat : α
  lon : α
  deriving DecidableEq

/-- `BoundingBox` struct. -/
structure BoundingBox (α : Type) where
  min_lat : α
  max_lat : α
  min_lon : α
  max_lon : α
  deriving DecidableEq

section Batch

variable {α : Type} [LinearOrderedField α]

/-- The accumulation loop of `get_bounding_box` over `coordinates.iter().skip(1)`. -/
def bboxFold (box : BoundingBox α) : List (Coordinate α) → BoundingBox α
  | [] => box
  | c :: rest =>
    bboxFold ⟨min box.min_lat c.lat, max box.max_lat c.lat,
              min box.min_lon c.lon, max box.max_lon c.lon⟩ rest

/-- `get_bounding_box` from `coordinate_operations.rs`. -/
def get_bounding_box : List (Coordinate α) → Except (Grid9Error α) (BoundingBox α)
  | [] => .error .EmptyInput
  | first :: rest => .ok (bboxFold ⟨first.lat, first.lat, first.lon, first.lon⟩ rest)

/-- `get_center_point` from `coordinate_operations.rs`. -/
def get_center_point (coordinates : List (Coordinate α)) :
    Except (Grid9Error α) (Coordinate α) :=
  if coordinates.isEmpty then .error .EmptyInput
  else
    .ok ⟨(coordinates.map Coordinate.lat).sum / ((coordinates.length : ℕ) : α),
         (coordinates.map Coordinate.lon).sum / ((coordinates.length : ℕ) : α)⟩

end Batch

/-- The number of iterations of the C-style loop
`x = lo; while x <= hi { ...; x += step }` for `step > 0`,
with the accumulation idealised as exact arithmetic. -/
noncomputable def stepCount (lo hi step : ℝ) : ℕ :=
  if lo ≤ hi then (⌊(hi - lo) / step⌋).toNat + 1 else 0

/-- The scan points of `find_nearby`'s nested grid loops, outer latitude rows
first, in iteration order. -/
noncomputable def scanPts (min_lat min_lon lat_step lon_step : ℝ) (nlat nlon : ℕ) :
    List (ℝ × ℝ) :=
  (List.range nlat).flatMap fun i =>
    (List.range nlon).map fun j =>
      (min_lat + (i : ℕ) * lat_step, min_lon + (j : ℕ) * lon_step)

/-- `find_nearby` from `coordinate_operations.rs`.  The nested while loops
with the early exit `results.len() < max_results` collect exactly the first
`max_results` accepted tokens in scan order, here expressed as
`filterMap` followed by `take`. -/
noncomputable def find_nearby (center_lat center_lon radius_meters : ℝ)
    (max_results : ℕ) : Except (Grid9Error ℝ) (List (List Char)) :=
  if radius_meters ≤ 0 then .error (.InvalidLatitude radius_meters)
  else
    match encode center_lat center_lon false with
    | .error e => .error e
    | .ok center_encoded =>
      let lat_delta := radius_meters / 111320
      let lon_delta := radius_meters / (111320 * Real.cos (center_lat * Real.pi / 180))
      let min_lat := max (center_lat - lat_delta) (-80)
      let max_lat := min (center_lat + lat_delta) 80
      let min_lon := max (center_lon - lon_delta) (-180)
      let max_lon := min (center_lon + lon_delta) 180
      let lat_step := (3 : ℝ) / 111320
      let lon_step := (3 : ℝ) / 111320
      let pts := scanPts min_lat min_lon lat_step lon_step
        (stepCount min_lat max_lat lat_step) (stepCount min_lon max_lon lon_step)
      let accepted := pts.filterMap fun p =>
        match encode p.1 p.2 false with
        | .error _ => none
        | .ok enc =>
          match calculate_distance center_encoded enc with
          | .error _ => none
          | .ok distance => if distance ≤ radius_meters then some enc else none
      .ok (accepted.take max_results)


/-! ## Helper lemmas: bytes and ASCII strings -/

theorem utf8Len_nil : utf8Len [] = 0 := rfl

theorem utf8Len_cons (c : Char) (s : List Char) :
    utf8Len (c :: s) = c.utf8Size + utf8Len s := by
  simp [utf8Len]

theorem utf8Len_eq_length {s : List Char} (h : ∀ c ∈ s, c.utf8Size = 1) :
    utf8Len s = s.length := by
  induction s with
  | nil => rfl
  | cons c t ih =>
    rw [utf8Len_cons, h c (by simp), ih fun d hd => h d (by simp [hd])]
    simp [Nat.add_comm]

theorem takeBytes_ascii :
    ∀ (s : List Char) (n : ℕ), (∀ c ∈ s, c.utf8Size = 1) → n ≤ s.length →
      takeBytes n s = some (s.take n) := by
  intro s
  induction s with
  | nil =>
    intro n _ hn
    match n with
    | 0 => rfl
  | cons c t ih =>
    intro n hascii hn
    match n with
    | 0 => rfl
    | m + 1 =>
      have hc : c.utf8Size = 1 := hascii c (by simp)
      simp only [takeBytes, hc]
      rw [if_pos (by omega)]
      have : m + 1 - 1 = m := by omega
      rw [this, ih m (fun d hd => hascii d (by simp [hd])) (by simpa using hn)]
      simp

theorem dropBytes_ascii :
    ∀ (s : List Char) (n : ℕ), (∀ c ∈ s, c.utf8Size = 1) → n ≤ s.length →
      dropBytes n s = some (s.drop n) := by
  intro s
  induction s with
  | nil =>
    intro n _ hn
    match n with
    | 0 => rfl
  | cons c t ih =>
    intro n hascii hn
    match n with
    | 0 => rfl
    | m + 1 =>
      have hc : c.utf8Size = 1 := hascii c (by simp)
      simp only [dropBytes, hc]
      rw [if_pos (by omega)]
      have : m + 1 - 1 = m := by omega
      rw [this, ih m (fun d hd => hascii d (by simp [hd])) (by simpa using hn)]
      simp

theorem sliceBytes_ascii {s : List Char} (i j : ℕ) (h : ∀ c ∈ s, c.utf8Size = 1)
    (hij : i ≤ j) (hj : j ≤ s.length) :
    sliceBytes i j s = some ((s.drop i).take (j - i)) := by
  rw [sliceBytes, dropBytes_ascii s i h (hij.trans hj)]
  have : ∀ c ∈ s.drop i, c.utf8Size = 1 := fun c hc => h c (List.mem_of_mem_drop hc)
  rw [Option.some_bind, takeBytes_ascii _ _ this (by simp; omega)]

/-- `format_for_humans` on an all-ASCII input: total, and for length 9 it
inserts dashes after positions 3 and 6. -/
theorem format_for_humans_ascii {s : List Char} (h : ∀ c ∈ s, c.utf8Size = 1)
    (h9 : s.length = 9) :
    format_for_humans s =
      some (s.take 3 ++ '-' :: (s.drop 3).take 3 ++ '-' :: s.drop 6) := by
  have hlen : utf8Len s = 9 := by rw [utf8Len_eq_length h, h9]
  rw [format_for_humans, if_neg (by omega)]
  rw [sliceBytes_ascii 0 3 h (by omega) (by omega), sliceBytes_ascii 3 6 h (by omega) (by omega),
    sliceBytes_ascii 6 9 h (by omega) (by omega)]
  have hdrop : (s.drop 6).take 3 = s.drop 6 := by
    apply List.take_of_length_le; simp [h9]
  simp [hdrop]

/-! ## Alphabet facts -/

theorem dash_not_mem_alphabet : '-' ∉ BASE32_ALPHABET := by decide

theorem alphabet_ascii : ∀ c ∈ BASE32_ALPHABET, c.utf8Size = 1 := by decide

theorem remove_formatting_eq_self {s : List Char}
    (h : ∀ c ∈ s, c ∈ BASE32_ALPHABET) : remove_formatting s = s := by
  rw [remove_formatting, List.filter_eq_self]
  intro c hc
  simp only [ne_eq, decide_eq_true_eq]
  intro hdash
  exact dash_not_mem_alphabet (hdash ▸ h c hc)

/-- C4 counterexample: on the 9-byte, 8-character input "aaéaaaaa" the code
panics (byte offset 3 is inside the two-byte character 'é'), so
`format_for_humans` neither returns normally nor returns the input unchanged,
although the input is not 9 characters long. -/
theorem format_for_humans_multibyte_panic :
    format_for_humans ['a', 'a', 'é', 'a', 'a', 'a', 'a', 'a'] = none ∧
    ['a', 'a', 'é', 'a', 'a', 'a', 'a', 'a'].length ≠ 9 := by decide

/-- C4 (amended): for every input string of ASCII characters (in particular
every token), `format_for_humans` returns normally: if the input is not
exactly 9 characters it is returned unchanged, otherwise a dash is inserted
after positions 3 and 6.  (On a 9-byte input whose byte offsets 3 or 6 fall
inside a multi-byte character the original code panics instead.) -/
theorem format_for_humans_total_on_ascii (s : List Char)
    (h : ∀ c ∈ s, c.utf8Size = 1) :
    (s.length ≠ 9 → format_for_humans s = some s) ∧
    (s.length = 9 →
      format_for_humans s =
        some (s.take 3 ++ '-' :: (s.drop 3).take 3 ++ '-' :: s.drop 6)) := by
  constructor
  · intro hne
    rw [format_for_humans, if_pos]
    rw [utf8Len_eq_length h]
    exact hne
  · intro h9
    exact format_for_humans_ascii h h9

/-- Witness for the amended C4 at a 3-character and a 9-character input. -/
theorem format_for_humans_total_on_ascii_witness :
    format_for_humans ['Q', '7', 'K'] = some ['Q', '7', 'K'] ∧
    format_for_humans ['Q', '7', 'K', 'H', '2', 'B', 'B', 'Y', 'E'] =
      some ['Q', '7', 'K', '-', 'H', '2', 'B', '-', 'B', 'Y', 'E'] := by
  constructor
  · exact (format_for_humans_total_on_ascii ['Q', '7', 'K'] (by decide)).1 (by decide)
  · exact ((format_for_humans_total_on_ascii ['Q', '7', 'K', 'H', '2', 'B', 'B', 'Y', 'E']
      (by decide)).2 (by decide)).trans (by decide)

/-- C7: for a 9-character token over the alphabet, unformatting inverts
formatting exactly, and decoding the formatted token gives exactly the same
result as decoding the bare token. -/
theorem format_roundtrip_exact (t : List Char) (h9 : t.length = 9)
    (halph : ∀ c ∈ t, c ∈ BASE32_ALPHABET) :
    ∃ ft, format_for_humans t = some ft ∧ remove_formatting ft = t ∧
      (decode ft : Except (Grid9Error ℚ) (ℚ × ℚ)) = decode t := by
  have hascii : ∀ c ∈ t, c.utf8Size = 1 := fun c hc => alphabet_ascii c (halph c hc)
  have hrm : remove_formatting (t.take 3 ++ '-' :: (t.drop 3).take 3 ++ '-' :: t.drop 6) = t := by
    have hne : ∀ c ∈ t, c ≠ '-' := fun c hc hdash =>
      dash_not_mem_alphabet (hdash ▸ halph c hc)
    have hf : ∀ (l : List Char), (∀ c ∈ l, c ≠ '-') →
        List.filter (fun c => !decide (c = '-')) l = l := by
      intro l hl
      rw [List.filter_eq_self]
      intro c hc
      simp [hl c hc]
    rw [remove_formatting]
    simp only [List.filter_append, List.filter_cons, decide_not]
    norm_num
    rw [hf _ fun c hc => hne c (List.mem_of_mem_take hc),
        hf _ fun c hc => hne c (List.mem_of_mem_drop (List.mem_of_mem_take hc)),
        hf _ fun c hc => hne c (List.mem_of_mem_drop hc)]
    rw [show t.drop 6 = (t.drop 3).drop 3 by simp,
      List.take_append_drop, List.take_append_drop]
  refine ⟨_, format_for_humans_ascii hascii h9, hrm, ?_⟩
  simp only [decode]
  rw [hrm, remove_formatting_eq_self halph]

/-- Witness for C7 at the token for New York City. -/
theorem format_roundtrip_exact_witness :
    ∃ ft, format_for_humans ['Q', '7', 'K', 'H', '2', 'B', 'B', 'Y', 'E'] = some ft ∧
      remove_formatting ft = ['Q', '7', 'K', 'H', '2', 'B', 'B', 'Y', 'E'] ∧
      (decode ft : Except (Grid9Error ℚ) (ℚ × ℚ)) =
        decode ['Q', '7', 'K', 'H', '2', 'B', 'B', 'Y', 'E'] :=
  format_roundtrip_exact _ (by decide) (by decide)

/-! ## Validation lemmas -/

section ValidationLemmas

variable {α : Type}

theorem checkChars_ok {s : List Char} (h : ∀ c ∈ s, c ∈ BASE32_ALPHABET) :
    checkChars (α := α) s = .ok () := by
  induction s with
  | nil => rfl
  | cons c t ih =>
    rw [checkChars, if_pos (h c (by simp))]
    exact ih fun d hd => h d (by simp [hd])

theorem checkChars_find {s : List Char} {c : Char}
    (h : s.find? (fun ch => decide (ch ∉ BASE32_ALPHABET)) = some c) :
    checkChars (α := α) s = .error (.InvalidCharacter c) := by
  induction s with
  | nil => simp [List.find?] at h
  | cons a t ih =>
    by_cases ha : a ∈ BASE32_ALPHABET
    · have hda : decide (a ∉ BASE32_ALPHABET) = false := by simp [ha]
      rw [List.find?_cons, hda] at h
      rw [checkChars, if_pos ha]
      exact ih h
    · have hda : decide (a ∉ BASE32_ALPHABET) = true := by simp [ha]
      rw [List.find?_cons, hda] at h
      obtain rfl : a = c := by simpa using h
      rw [checkChars, if_neg ha]

theorem alphaIndex_isSome : ∀ c ∈ BASE32_ALPHABET, (alphaIndex c).isSome := by
  decide

theorem packChars_exists_ok {s : List Char} (h : ∀ c ∈ s, c ∈ BASE32_ALPHABET) :
    ∀ acc, ∃ n, packChars (α := α) s acc = .ok n := by
  induction s with
  | nil => exact fun acc => ⟨acc, rfl⟩
  | cons c t ih =>
    intro acc
    obtain ⟨p, hp⟩ := Option.isSome_iff_exists.mp (alphaIndex_isSome c (h c (by simp)))
    rw [packChars, hp]
    exact ih (fun d hd => h d (by simp [hd])) _

end ValidationLemmas

/-- C6: `decode` first strips dashes and then either succeeds or fails with
exactly one error: `EmptyInput` on an empty cleaned string, a length error
(on the byte length, which equals the character count for ASCII input) when
the cleaned length is not 9, or `InvalidCharacter` naming the first
(leftmost) character outside the alphabet; a fully valid cleaned string
decodes successfully — never a partial decode. -/
theorem decode_error_taxonomy (s : List Char) :
    (remove_formatting s = [] → decode (α := ℚ) s = .error .EmptyInput) ∧
    (remove_formatting s ≠ [] → utf8Len (remove_formatting s) ≠ 9 →
      decode (α := ℚ) s = .error (.InvalidLength (utf8Len (remove_formatting s)))) ∧
    (∀ c : Char, utf8Len (remove_formatting s) = 9 →
      (remove_formatting s).find? (fun ch => decide (ch ∉ BASE32_ALPHABET)) = some c →
      decode (α := ℚ) s = .error (.InvalidCharacter c)) ∧
    (utf8Len (remove_formatting s) = 9 → (∀ c ∈ remove_formatting s, c ∈ BASE32_ALPHABET) →
      ∃ p, decode (α := ℚ) s = .ok p) := by
  refine ⟨?_, ?_, ?_, ?_⟩
  · intro hempty
    simp [decode, validate_encoded_string, hempty]
  · intro hne hlen
    simp [decode, validate_encoded_string, hne, hlen]
  · intro c h9 hfind
    have hne : remove_formatting s ≠ [] := by
      intro hnil
      rw [hnil] at hfind
      simp [List.find?] at hfind
    have hval : validate_encoded_string (remove_formatting s) =
        (.error (.InvalidCharacter c) : Except (Grid9Error ℚ) Unit) := by
      rw [validate_encoded_string, if_neg hne, if_neg (by omega)]
      exact checkChars_find hfind
    simp [decode, hval]
  · intro h9 halph
    have hne : remove_formatting s ≠ [] := by
      intro hnil
      rw [hnil] at h9
      simp [utf8Len] at h9
    have hval : validate_encoded_string (remove_formatting s) =
        (.ok () : Except (Grid9Error ℚ) Unit) := by
      rw [validate_encoded_string, if_neg hne, if_neg (by omega)]
      exact checkChars_ok halph
    obtain ⟨n, hn⟩ := packChars_exists_ok (α := ℚ) halph 0
    refine ⟨(((n >>> LON_BITS &&& LAT_MAX : ℕ) : ℚ) / ((LAT_MAX : ℕ) : ℚ) * 180 - 90,
      ((n &&& LON_MAX : ℕ) : ℚ) / ((LON_MAX : ℕ) : ℚ) * 360 - 180), ?_⟩
    simp [decode, hval, hn]

/-- Witness for C6: the four cases at concrete inputs — only dashes, wrong
length, an invalid character, and a valid token. -/
theorem decode_error_taxonomy_witness :
    decode (α := ℚ) ['-', '-'] = .error .EmptyInput ∧
    decode (α := ℚ) ['A', 'B', 'C'] = .error (.InvalidLength 3) ∧
    decode (α := ℚ) ['A', 'I', 'L', 'O', 'U', '!', 'A', 'B', 'C'] =
      .error (.InvalidCharacter 'I') ∧
    ∃ p, decode (α := ℚ) ['Q', '7', 'K', 'H', '2', 'B', 'B', 'Y', 'E'] = .ok p := by
  refine ⟨?_, ?_, ?_, ?_⟩
  · exact (decode_error_taxonomy ['-', '-']).1 (by decide)
  · have h := (decode_error_taxonomy ['A', 'B', 'C']).2.1 (by decide) (by decide)
    rw [show utf8Len (remove_formatting ['A', 'B', 'C']) = 3 from by decide] at h
    exact h
  · exact (decode_error_taxonomy ['A', 'I', 'L', 'O', 'U', '!', 'A', 'B', 'C']).2.2.1 'I'
      (by decide) (by decide)
  · exact (decode_error_taxonomy ['Q', '7', 'K', 'H', '2', 'B', 'B', 'Y', 'E']).2.2.2
      (by decide) (by decide)

/-! ## Bit-packing lemmas -/

theorem nat_shiftLeft_lor_eq_add {p k : ℕ} (a : ℕ) (hp : p < 2 ^ k) :
    (a <<< k) ||| p = a * 2 ^ k + p := by
  rw [Nat.shiftLeft_eq]
  calc a * 2 ^ k ||| p = 2 ^ k * a ||| p := by rw [Nat.mul_comm]
    _ = 2 ^ k * a + p := (Nat.mul_add_lt_is_or hp a).symm
    _ = a * 2 ^ k + p := by rw [Nat.mul_comm]

theorem nat_and_31 (n : ℕ) : n &&& 31 = n % 32 := by
  have h := Nat.and_pow_two_sub_one_eq_mod n 5
  norm_num at h
  exact h

theorem nat_shiftRight_5 (n : ℕ) : n >>> 5 = n / 32 := by
  rw [Nat.shiftRight_eq_div_pow]

theorem encodeDigits_succ (n k : ℕ) :
    encodeDigits n (k + 1) = encodeDigits (n / 32) k ++ [alphaChar (n % 32)] := by
  rw [encodeDigits, nat_shiftRight_5, show (0x1F : ℕ) = 31 from rfl, nat_and_31]

theorem length_encodeDigits : ∀ (k n : ℕ), (encodeDigits n k).length = k := by
  intro k
  induction k with
  | zero => intro n; rfl
  | succ k ih => intro n; rw [encodeDigits_succ]; simp [ih]

theorem alphaChar_mem : ∀ d, d < 32 → alphaChar d ∈ BASE32_ALPHABET := by decide

theorem mem_encodeDigits : ∀ (k n : ℕ) (c : Char), c ∈ encodeDigits n k → c ∈ BASE32_ALPHABET := by
  intro k
  induction k with
  | zero => intro n c hc; simp [encodeDigits] at hc
  | succ k ih =>
    intro n c hc
    rw [encodeDigits_succ] at hc
    rcases List.mem_append.mp hc with h | h
    · exact ih _ _ h
    · obtain rfl : c = alphaChar (n % 32) := by simpa using h
      exact alphaChar_mem _ (Nat.mod_lt _ (by norm_num))

theorem alphaIndex_alphaChar : ∀ d, d < 32 → alphaIndex (alphaChar d) = some d := by decide

theorem packChars_append {α : Type} (l1 l2 : List Char) (acc : ℕ) :
    packChars (α := α) (l1 ++ l2) acc =
      match packChars (α := α) l1 acc with
      | .ok a => packChars (α := α) l2 a
      | .error e => .error e := by
  induction l1 generalizing acc with
  | nil => rfl
  | cons c t ih =>
    simp only [List.cons_append, packChars]
    cases h : alphaIndex c with
    | none => simp [h]
    | some p => simp [h, ih]

theorem packChars_encodeDigits {α : Type} :
    ∀ (k acc n : ℕ), n < 32 ^ k →
      packChars (α := α) (encodeDigits n k) acc = .ok (acc * 32 ^ k + n) := by
  intro k
  induction k with
  | zero =>
    intro acc n hn
    obtain rfl : n = 0 := by omega
    simp [encodeDigits, packChars]
  | succ k ih =>
    intro acc n hn
    have hdiv : n / 32 < 32 ^ k := by
      rw [Nat.div_lt_iff_lt_mul (by norm_num)]
      calc n < 32 ^ (k + 1) := hn
        _ = 32 ^ k * 32 := by ring
    rw [encodeDigits_succ, packChars_append, ih acc (n / 32) hdiv]
    simp only [packChars, alphaIndex_alphaChar _ (Nat.mod_lt _ (by norm_num))]
    rw [nat_shiftLeft_lor_eq_add _ (show n % 32 < 2 ^ 5 from Nat.mod_lt _ (by norm_num))]
    congr 1
    calc (acc * 32 ^ k + n / 32) * 2 ^ 5 + n % 32
        = acc * (32 ^ k * 32) + (32 * (n / 32) + n % 32) := by ring
      _ = acc * 32 ^ (k + 1) + n := by rw [Nat.div_add_mod]; ring

theorem unpack_lon {b c : ℕ} (hc : c < 2 ^ LON_BITS) :
    ((b <<< LON_BITS) ||| c) &&& LON_MAX = c := by
  rw [nat_shiftLeft_lor_eq_add _ hc, LON_MAX, Nat.and_pow_two_sub_one_eq_mod,
    show b * 2 ^ LON_BITS + c = 2 ^ LON_BITS * b + c from by ring, Nat.mul_add_mod]
  exact Nat.mod_eq_of_lt hc

theorem unpack_lat {b c : ℕ} (hb : b < 2 ^ LAT_BITS) (hc : c < 2 ^ LON_BITS) :
    (((b <<< LON_BITS) ||| c) >>> LON_BITS) &&& LAT_MAX = b := by
  rw [nat_shiftLeft_lor_eq_add _ hc, Nat.shiftRight_eq_div_pow]
  rw [show b * 2 ^ LON_BITS + c = 2 ^ LON_BITS * b + c from by ring]
  rw [Nat.mul_add_div (by positivity), Nat.div_eq_of_lt hc, Nat.add_zero]
  rw [LAT_MAX, Nat.and_pow_two_sub_one_eq_mod]
  exact Nat.mod_eq_of_lt hb

/-! ## Codec characterisation -/

section CodecLemmas

variable {α : Type} [LinearOrderedField α] [FloorRing α]

theorem validate_coordinates_ok {lat lon : α} (h1 : -90 ≤ lat) (h2 : lat ≤ 90)
    (h3 : -180 ≤ lon) (h4 : lon ≤ 180) :
    validate_coordinates lat lon = (.ok () : Except (Grid9Error α) Unit) := by
  rw [validate_coordinates, if_neg (not_not_intro ⟨h1, h2⟩),
    if_neg (not_not_intro ⟨h3, h4⟩)]

theorem encode_false_eq {lat lon : α} (h1 : -90 ≤ lat) (h2 : lat ≤ 90)
    (h3 : -180 ≤ lon) (h4 : lon ≤ 180) :
    encode lat lon false = .ok (encodeDigits
      ((min (⌊(lat + 90) / 180 * ((LAT_MAX : ℕ) : α)⌋.toNat) LAT_MAX <<< LON_BITS) |||
        min (⌊(lon + 180) / 360 * ((LON_MAX : ℕ) : α)⌋.toNat) LON_MAX) 9) := by
  rw [encode, validate_coordinates_ok h1 h2 h3 h4]
  rfl

theorem encode_ok_validate {lat lon : α} {hr : Bool} {t : List Char}
    (h : encode lat lon hr = .ok t) :
    validate_coordinates lat lon = (.ok () : Except (Grid9Error α) Unit) := by
  cases hv : validate_coordinates lat lon with
  | error e => rw [encode, hv] at h; exact Except.noConfusion h
  | ok u => rfl

theorem validate_ok_ranges {lat lon : α}
    (h : validate_coordinates lat lon = (.ok () : Except (Grid9Error α) Unit)) :
    -90 ≤ lat ∧ lat ≤ 90 ∧ -180 ≤ lon ∧ lon ≤ 180 := by
  by_cases ha : -90 ≤ lat ∧ lat ≤ 90
  · by_cases hb : -180 ≤ lon ∧ lon ≤ 180
    · exact ⟨ha.1, ha.2, hb.1, hb.2⟩
    · rw [validate_coordinates, if_neg (not_not_intro ha), if_pos hb] at h
      exact Except.noConfusion h
  · rw [validate_coordinates, if_pos ha] at h
    exact Except.noConfusion h

theorem encode_ok_ranges {lat lon : α} {hr : Bool} {t : List Char}
    (h : encode lat lon hr = .ok t) :
    -90 ≤ lat ∧ lat ≤ 90 ∧ -180 ≤ lon ∧ lon ≤ 180 :=
  validate_ok_ranges (encode_ok_validate h)

theorem remove_formatting_encodeDigits (n k : ℕ) :
    remove_formatting (encodeDigits n k) = encodeDigits n k :=
  remove_formatting_eq_self fun _ hc => mem_encodeDigits _ _ _ hc

theorem validate_encodeDigits (n : ℕ) :
    validate_encoded_string (α := α) (encodeDigits n 9) = .ok () := by
  rw [validate_encoded_string, if_neg, if_neg]
  · exact checkChars_ok fun _ hc => mem_encodeDigits _ _ _ hc
  · rw [utf8Len_eq_length fun c hc => alphabet_ascii c (mem_encodeDigits _ _ _ hc),
      length_encodeDigits]
    simp
  · intro hnil
    have h9 := length_encodeDigits 9 n
    rw [hnil] at h9
    simp at h9

theorem lat_max_lt : LAT_MAX < 2 ^ LAT_BITS := by norm_num [LAT_MAX, LAT_BITS]

theorem lon_max_lt : LON_MAX < 2 ^ LON_BITS := by norm_num [LON_MAX, LON_BITS]

theorem packed_lt {b c : ℕ} (hb : b ≤ LAT_MAX) (hc : c ≤ LON_MAX) :
    (b <<< LON_BITS) ||| c < 32 ^ 9 := by
  rw [nat_shiftLeft_lor_eq_add _ (lt_of_le_of_lt hc lon_max_lt)]
  norm_num [LAT_MAX, LAT_BITS, LON_MAX, LON_BITS] at hb hc ⊢
  omega

theorem decode_encodeDigits {b c : ℕ} (hb : b ≤ LAT_MAX) (hc : c ≤ LON_MAX) :
    decode (α := α) (encodeDigits ((b <<< LON_BITS) ||| c) 9) =
      .ok ((b : α) / ((LAT_MAX : ℕ) : α) * 180 - 90,
           (c : α) / ((LON_MAX : ℕ) : α) * 360 - 180) := by
  have hb' : b < 2 ^ LAT_BITS := lt_of_le_of_lt hb lat_max_lt
  have hc' : c < 2 ^ LON_BITS := lt_of_le_of_lt hc lon_max_lt
  have hpk := packChars_encodeDigits (α := α) 9 0 _ (packed_lt hb hc)
  rw [Nat.zero_mul, Nat.zero_add] at hpk
  simp only [decode, remove_formatting_encodeDigits, validate_encodeDigits, hpk,
    unpack_lat hb' hc', unpack_lon hc']

end CodecLemmas

/-! ## Concrete evaluation at the New York City coordinate -/

theorem nyc_lat_floor : ⌊((40.7128 : ℚ) + 90) / 180 * ((LAT_MAX : ℕ) : ℚ)⌋ = 3045828 := by
  rw [Int.floor_eq_iff]
  constructor <;> norm_num [LAT_MAX, LAT_BITS]

theorem nyc_lon_floor : ⌊((-74.0060 : ℚ) + 180) / 360 * ((LON_MAX : ℕ) : ℚ)⌋ = 2469838 := by
  rw [Int.floor_eq_iff]
  constructor <;> norm_num [LON_MAX, LON_BITS]

theorem nyc_encode : encode (40.7128 : ℚ) (-74.0060) false =
    .ok ['Q', '7', 'K', 'H', '2', 'B', 'B', 'Y', 'E'] := by
  rw [encode_false_eq (by norm_num) (by norm_num) (by norm_num) (by norm_num),
    nyc_lat_floor, nyc_lon_floor]
  exact congrArg Except.ok (by decide)

theorem nyc_decode : decode (['Q', '7', 'K', 'H', '2', 'B', 'B', 'Y', 'E'] : List Char) =
    .ok ((56920590 / 1398101 : ℚ), (-620807580 / 8388607 : ℚ)) := by
  have h : (['Q', '7', 'K', 'H', '2', 'B', 'B', 'Y', 'E'] : List Char) =
      encodeDigits ((3045828 <<< LON_BITS) ||| 2469838) 9 := by decide
  rw [h, decode_encodeDigits (by norm_num [LAT_MAX, LAT_BITS]) (by norm_num [LON_MAX, LON_BITS])]
  norm_num [LAT_MAX, LAT_BITS, LON_MAX, LON_BITS]

/-- C3: on a valid coordinate, if `encode` yields token `t` and `decode t`
yields `(lat', lon')`, then encoding the decoded coordinate yields the same
token `t` — encoding is idempotent after the first quantisation. -/
theorem encode_decode_encode_idempotent {lat lon lat' lon' : ℚ} {t : List Char}
    (hlat1 : -90 ≤ lat) (hlat2 : lat ≤ 90) (hlon1 : -180 ≤ lon) (hlon2 : lon ≤ 180)
    (he : encode lat lon false = .ok t) (hd : decode t = .ok (lat', lon')) :
    encode lat' lon' false = .ok t := by
  rw [encode_false_eq hlat1 hlat2 hlon1 hlon2] at he
  set b := min (⌊(lat + 90) / 180 * ((LAT_MAX : ℕ) : ℚ)⌋.toNat) LAT_MAX with hbdef
  set c := min (⌊(lon + 180) / 360 * ((LON_MAX : ℕ) : ℚ)⌋.toNat) LON_MAX with hcdef
  obtain rfl : t = encodeDigits ((b <<< LON_BITS) ||| c) 9 := (Except.ok.inj he).symm
  have hble : b ≤ LAT_MAX := min_le_right _ _
  have hcle : c ≤ LON_MAX := min_le_right _ _
  rw [decode_encodeDigits hble hcle] at hd
  have hpair := Except.ok.inj hd
  rw [Prod.mk.injEq] at hpair
  obtain ⟨hlat', hlon'⟩ := hpair
  subst hlat'
  subst hlon'
  have hM : (0 : ℚ) < ((LAT_MAX : ℕ) : ℚ) := by norm_num [LAT_MAX, LAT_BITS]
  have hN : (0 : ℚ) < ((LON_MAX : ℕ) : ℚ) := by norm_num [LON_MAX, LON_BITS]
  have hr1 : -90 ≤ (b : ℚ) / ((LAT_MAX : ℕ) : ℚ) * 180 - 90 := by
    have h0 : 0 ≤ (b : ℚ) / ((LAT_MAX : ℕ) : ℚ) := by positivity
    linarith
  have hr2 : (b : ℚ) / ((LAT_MAX : ℕ) : ℚ) * 180 - 90 ≤ 90 := by
    have hle : (b : ℚ) / ((LAT_MAX : ℕ) : ℚ) ≤ 1 := by
      rw [div_le_one hM]
      exact_mod_cast hble
    linarith
  have hr3 : -180 ≤ (c : ℚ) / ((LON_MAX : ℕ) : ℚ) * 360 - 180 := by
    have h0 : 0 ≤ (c : ℚ) / ((LON_MAX : ℕ) : ℚ) := by positivity
    linarith
  have hr4 : (c : ℚ) / ((LON_MAX : ℕ) : ℚ) * 360 - 180 ≤ 180 := by
    have hle : (c : ℚ) / ((LON_MAX : ℕ) : ℚ) ≤ 1 := by
      rw [div_le_one hN]
      exact_mod_cast hcle
    linarith
  rw [encode_false_eq hr1 hr2 hr3 hr4]
  have e1 : ((b : ℚ) / ((LAT_MAX : ℕ) : ℚ) * 180 - 90 + 90) / 180 * ((LAT_MAX : ℕ) : ℚ) =
      ((b : ℕ) : ℚ) := by
    field_simp
    ring
  have e2 : ((c : ℚ) / ((LON_MAX : ℕ) : ℚ) * 360 - 180 + 180) / 360 * ((LON_MAX : ℕ) : ℚ) =
      ((c : ℕ) : ℚ) := by
    field_simp
    ring
  rw [e1, e2, Int.floor_natCast, Int.floor_natCast, Int.toNat_natCast, Int.toNat_natCast,
    min_eq_left hble, min_eq_left hcle]

/-- Witness for C3 at the New York City coordinate. -/
theorem encode_decode_encode_idempotent_witness :
    encode (40.7128 : ℚ) (-74.0060) false = .ok ['Q', '7', 'K', 'H', '2', 'B', 'B', 'Y', 'E'] ∧
    decode (['Q', '7', 'K', 'H', '2', 'B', 'B', 'Y', 'E'] : List Char) =
      .ok ((56920590 / 1398101 : ℚ), (-620807580 / 8388607 : ℚ)) ∧
    encode (56920590 / 1398101 : ℚ) (-620807580 / 8388607) false =
      .ok ['Q', '7', 'K', 'H', '2', 'B', 'B', 'Y', 'E'] :=
  ⟨nyc_encode, nyc_decode,
    encode_decode_encode_idempotent (by norm_num) (by norm_num) (by norm_num) (by norm_num)
      nyc_encode nyc_decode⟩

/-! ## Length invariants of encode -/

theorem encode_true_of_false {α : Type} [LinearOrderedField α] [FloorRing α]
    {lat lon : α} {t : List Char} (he : encode lat lon false = .ok t) :
    encode lat lon true = .ok ((format_for_humans t).getD t) := by
  have hval := encode_ok_validate he
  obtain ⟨h1, h2, h3, h4⟩ := validate_ok_ranges hval
  rw [encode_false_eq h1 h2 h3 h4] at he
  obtain rfl : t = _ := (Except.ok.inj he).symm
  rw [encode, hval]
  rfl

/-- C8: a successful compact encode is 9 characters over the alphabet; a
successful human-readable encode is 11 characters containing exactly two
dashes. -/
theorem encode_length_invariant (lat lon : ℚ) :
    (∀ t, encode lat lon false = .ok t →
      t.length = 9 ∧ ∀ c ∈ t, c ∈ BASE32_ALPHABET) ∧
    (∀ u, encode lat lon true = .ok u →
      u.length = 11 ∧ u.count '-' = 2) := by
  constructor
  · intro t ht
    obtain ⟨h1, h2, h3, h4⟩ := encode_ok_ranges ht
    rw [encode_false_eq h1 h2 h3 h4] at ht
    obtain rfl : t = _ := (Except.ok.inj ht).symm
    exact ⟨length_encodeDigits _ _, fun c hc => mem_encodeDigits _ _ _ hc⟩
  · intro u hu
    obtain ⟨h1, h2, h3, h4⟩ := encode_ok_ranges hu
    have hfalse := encode_false_eq h1 h2 h3 h4
    rw [encode_true_of_false hfalse] at hu
    set r := encodeDigits
      ((min (⌊(lat + 90) / 180 * ((LAT_MAX : ℕ) : ℚ)⌋.toNat) LAT_MAX <<< LON_BITS) |||
        min (⌊(lon + 180) / 360 * ((LON_MAX : ℕ) : ℚ)⌋.toNat) LON_MAX) 9 with hrdef
    have h9 : r.length = 9 := length_encodeDigits _ _
    have halph : ∀ c ∈ r, c ∈ BASE32_ALPHABET := fun c hc => mem_encodeDigits _ _ _ hc
    rw [format_for_humans_ascii (fun c hc => alphabet_ascii c (halph c hc)) h9] at hu
    obtain rfl : u = r.take 3 ++ '-' :: (r.drop 3).take 3 ++ '-' :: r.drop 6 :=
      (Except.ok.inj hu).symm
    constructor
    · simp [List.length_append, List.length_take, h9]
    · have hc1 : (r.take 3).count '-' = 0 := List.count_eq_zero.mpr fun hmem =>
        dash_not_mem_alphabet (halph _ (List.mem_of_mem_take hmem))
      have hc2 : ((r.drop 3).take 3).count '-' = 0 := List.count_eq_zero.mpr fun hmem =>
        dash_not_mem_alphabet (halph _ (List.mem_of_mem_drop (List.mem_of_mem_take hmem)))
      have hc3 : (r.drop 6).count '-' = 0 := List.count_eq_zero.mpr fun hmem =>
        dash_not_mem_alphabet (halph _ (List.mem_of_mem_drop hmem))
      simp [List.count_append, List.count_cons, hc1, hc2, hc3]

/-- Witness for C8 at the New York City coordinate. -/
theorem encode_length_invariant_witness :
    encode (40.7128 : ℚ) (-74.0060) false = .ok ['Q', '7', 'K', 'H', '2', 'B', 'B', 'Y', 'E'] ∧
    (['Q', '7', 'K', 'H', '2', 'B', 'B', 'Y', 'E'] : List Char).length = 9 ∧
    (∀ c ∈ (['Q', '7', 'K', 'H', '2', 'B', 'B', 'Y', 'E'] : List Char), c ∈ BASE32_ALPHABET) ∧
    encode (40.7128 : ℚ) (-74.0060) true =
      .ok ['Q', '7', 'K', '-', 'H', '2', 'B', '-', 'B', 'Y', 'E'] ∧
    (['Q', '7', 'K', '-', 'H', '2', 'B', '-', 'B', 'Y', 'E'] : List Char).length = 11 ∧
    (['Q', '7', 'K', '-', 'H', '2', 'B', '-', 'B', 'Y', 'E'] : List Char).count '-' = 2 := by
  have htrue : encode (40.7128 : ℚ) (-74.0060) true =
      .ok ['Q', '7', 'K', '-', 'H', '2', 'B', '-', 'B', 'Y', 'E'] := by
    rw [encode_true_of_false nyc_encode]
    exact congrArg Except.ok (by decide)
  obtain ⟨ha, hb⟩ := (encode_length_invariant (40.7128 : ℚ) (-74.0060)).1 _ nyc_encode
  obtain ⟨hd, he⟩ := (encode_length_invariant (40.7128 : ℚ) (-74.0060)).2 _ htrue
  exact ⟨nyc_encode, ha, hb, htrue, hd, he⟩

/-- C10: a successful decode always returns a latitude in `[-90, 90]` and a
longitude in `[-180, 180]`, hence satisfies the precondition of `encode`. -/
theorem decode_in_range {s : List Char} {lat lon : ℚ}
    (h : decode s = .ok (lat, lon)) :
    -90 ≤ lat ∧ lat ≤ 90 ∧ -180 ≤ lon ∧ lon ≤ 180 := by
  rcases hv : validate_encoded_string (α := ℚ) (remove_formatting s) with e | u
  · simp only [decode] at h
    rw [hv] at h
    exact Except.noConfusion h
  · cases u
    rcases hp : packChars (α := ℚ) (remove_formatting s) 0 with e | n
    · simp only [decode] at h
      rw [hv, hp] at h
      exact Except.noConfusion h
    · simp only [decode] at h
      rw [hv, hp] at h
      have hpair : ((((n >>> LON_BITS &&& LAT_MAX : ℕ) : ℚ) / ((LAT_MAX : ℕ) : ℚ) * 180 - 90,
          ((n &&& LON_MAX : ℕ) : ℚ) / ((LON_MAX : ℕ) : ℚ) * 360 - 180) : ℚ × ℚ) =
          (lat, lon) := Except.ok.inj h
      rw [Prod.mk.injEq] at hpair
      obtain ⟨hlat, hlon⟩ := hpair
      subst hlat
      subst hlon
      have hxa : (n >>> LON_BITS &&& LAT_MAX) ≤ LAT_MAX := Nat.and_le_right
      have hxb : (n &&& LON_MAX) ≤ LON_MAX := Nat.and_le_right
      have hM : (0 : ℚ) < ((LAT_MAX : ℕ) : ℚ) := by norm_num [LAT_MAX, LAT_BITS]
      have hN : (0 : ℚ) < ((LON_MAX : ℕ) : ℚ) := by norm_num [LON_MAX, LON_BITS]
      have d1 : 0 ≤ ((n >>> LON_BITS &&& LAT_MAX : ℕ) : ℚ) / ((LAT_MAX : ℕ) : ℚ) := by positivity
      have d2 : ((n >>> LON_BITS &&& LAT_MAX : ℕ) : ℚ) / ((LAT_MAX : ℕ) : ℚ) ≤ 1 := by
        rw [div_le_one hM]
        exact_mod_cast hxa
      have d3 : 0 ≤ ((n &&& LON_MAX : ℕ) : ℚ) / ((LON_MAX : ℕ) : ℚ) := by positivity
      have d4 : ((n &&& LON_MAX : ℕ) : ℚ) / ((LON_MAX : ℕ) : ℚ) ≤ 1 := by
        rw [div_le_one hN]
        exact_mod_cast hxb
      refine ⟨by linarith, by linarith, by linarith, by linarith⟩

/-- Witness for C10 at the New York City token. -/
theorem decode_in_range_witness :
    decode (['Q', '7', 'K', 'H', '2', 'B', 'B', 'Y', 'E'] : List Char) =
      .ok ((56920590 / 1398101 : ℚ), (-620807580 / 8388607 : ℚ)) ∧
    (-90 ≤ (56920590 / 1398101 : ℚ) ∧ (56920590 / 1398101 : ℚ) ≤ 90 ∧
      -180 ≤ (-620807580 / 8388607 : ℚ) ∧ (-620807580 / 8388607 : ℚ) ≤ 180) :=
  ⟨nyc_decode, decode_in_range nyc_decode⟩

/-! ## C5: non-positive radius -/

/-- C5: `find_nearby` rejects any non-positive radius, for every center and
limit, and the error is `InvalidLatitude` carrying the radius value (the
latitude error kind reused as a transport for the out-of-range radius). -/
theorem find_nearby_nonpositive_radius (lat lon r : ℝ) (k : ℕ) (h : r ≤ 0) :
    find_nearby lat lon r k = .error (.InvalidLatitude r) := by
  rw [find_nearby, if_pos h]

/-- Witness for C5 at radius 0. -/
theorem find_nearby_nonpositive_radius_witness :
    (0 : ℝ) ≤ 0 ∧ find_nearby 0 0 0 5 = .error (.InvalidLatitude 0) :=
  ⟨le_refl 0, find_nearby_nonpositive_radius 0 0 0 5 (le_refl 0)⟩

/-! ## C9: bounding box and centroid -/

section FoldMinMax

variable {γ : Type} [LinearOrder γ]

theorem foldl_min_le_init : ∀ (l : List γ) (a : γ), l.foldl min a ≤ a := by
  intro l
  induction l with
  | nil => intro a; exact le_refl a
  | cons x t ih => intro a; exact (ih (min a x)).trans (min_le_left _ _)

theorem foldl_min_le_mem : ∀ (l : List γ) (a x : γ), x ∈ l → l.foldl min a ≤ x := by
  intro l
  induction l with
  | nil => intro a x hx; simp at hx
  | cons y t ih =>
    intro a x hx
    rcases List.mem_cons.mp hx with rfl | hx
    · exact (foldl_min_le_init t _).trans (min_le_right _ _)
    · exact ih _ _ hx

theorem foldl_min_eq_or : ∀ (l : List γ) (a : γ), l.foldl min a = a ∨ l.foldl min a ∈ l := by
  intro l
  induction l with
  | nil => intro a; exact Or.inl rfl
  | cons x t ih =>
    intro a
    rcases ih (min a x) with h | h
    · rcases min_cases a x with ⟨hmin, _⟩ | ⟨hmin, _⟩
      · exact Or.inl (by rw [List.foldl_cons, h, hmin])
      · refine Or.inr ?_
        rw [List.foldl_cons, h, hmin]
        exact List.mem_cons_self x t
    · refine Or.inr ?_
      rw [List.foldl_cons]
      exact List.mem_cons_of_mem _ h

theorem le_foldl_max_init : ∀ (l : List γ) (a : γ), a ≤ l.foldl max a := by
  intro l
  induction l with
  | nil => intro a; exact le_refl a
  | cons x t ih => intro a; exact (le_max_left a x).trans (ih (max a x))

theorem mem_le_foldl_max : ∀ (l : List γ) (a x : γ), x ∈ l → x ≤ l.foldl max a := by
  intro l
  induction l with
  | nil => intro a x hx; simp at hx
  | cons y t ih =>
    intro a x hx
    rcases List.mem_cons.mp hx with rfl | hx
    · exact (le_max_right a x).trans (le_foldl_max_init t _)
    · exact ih _ _ hx

theorem foldl_max_eq_or : ∀ (l : List γ) (a : γ), l.foldl max a = a ∨ l.foldl max a ∈ l := by
  intro l
  induction l with
  | nil => intro a; exact Or.inl rfl
  | cons x t ih =>
    intro a
    rcases ih (max a x) with h | h
    · rcases max_cases a x with ⟨hmax, _⟩ | ⟨hmax, _⟩
      · exact Or.inl (by rw [List.foldl_cons, h, hmax])
      · refine Or.inr ?_
        rw [List.foldl_cons, h, hmax]
        exact List.mem_cons_self x t
    · refine Or.inr ?_
      rw [List.foldl_cons]
      exact List.mem_cons_of_mem _ h

end FoldMinMax

section BBoxLemmas

variable {α : Type} [LinearOrderedField α]

theorem bboxFold_min_lat : ∀ (l : List (Coordinate α)) (box : BoundingBox α),
    (bboxFold box l).min_lat = (l.map Coordinate.lat).foldl min box.min_lat := by
  intro l
  induction l with
  | nil => intro box; rfl
  | cons c t ih => intro box; rw [bboxFold, ih]; rfl

theorem bboxFold_max_lat : ∀ (l : List (Coordinate α)) (box : BoundingBox α),
    (bboxFold box l).max_lat = (l.map Coordinate.lat).foldl max box.max_lat := by
  intro l
  induction l with
  | nil => intro box; rfl
  | cons c t ih => intro box; rw [bboxFold, ih]; rfl

theorem bboxFold_min_lon : ∀ (l : List (Coordinate α)) (box : BoundingBox α),
    (bboxFold box l).min_lon = (l.map Coordinate.lon).foldl min box.min_lon := by
  intro l
  induction l with
  | nil => intro box; rfl
  | cons c t ih => intro box; rw [bboxFold, ih]; rfl

theorem bboxFold_max_lon : ∀ (l : List (Coordinate α)) (box : BoundingBox α),
    (bboxFold box l).max_lon = (l.map Coordinate.lon).foldl max box.max_lon := by
  intro l
  induction l with
  | nil => intro box; rfl
  | cons c t ih => intro box; rw [bboxFold, ih]; rfl

end BBoxLemmas

/-- C9: `get_bounding_box` and `get_center_point` fail with `EmptyInput` on
the empty sequence, and on a non-empty sequence `get_bounding_box` returns
exactly the componentwise minimum/maximum of all latitudes and longitudes. -/
theorem bounding_box_spec :
    get_bounding_box ([] : List (Coordinate ℚ)) = .error .EmptyInput ∧
    get_center_point ([] : List (Coordinate ℚ)) = .error .EmptyInput ∧
    ∀ (coords : List (Coordinate ℚ)) (box : BoundingBox ℚ),
      get_bounding_box coords = .ok box →
      (∀ p ∈ coords, box.min_lat ≤ p.lat ∧ p.lat ≤ box.max_lat ∧
        box.min_lon ≤ p.lon ∧ p.lon ≤ box.max_lon) ∧
      (∃ p ∈ coords, p.lat = box.min_lat) ∧ (∃ p ∈ coords, p.lat = box.max_lat) ∧
      (∃ p ∈ coords, p.lon = box.min_lon) ∧ (∃ p ∈ coords, p.lon = box.max_lon) := by
  refine ⟨rfl, rfl, ?_⟩
  intro coords box hbox
  match coords with
  | [] => exact Except.noConfusion hbox
  | first :: rest =>
    rw [get_bounding_box] at hbox
    obtain rfl : box = bboxFold ⟨first.lat, first.lat, first.lon, first.lon⟩ rest :=
      (Except.ok.inj hbox).symm
    set seed : BoundingBox ℚ := ⟨first.lat, first.lat, first.lon, first.lon⟩ with hseed
    constructor
    · intro p hp
      rcases List.mem_cons.mp hp with rfl | hp
      · exact ⟨by rw [bboxFold_min_lat]; exact foldl_min_le_init _ _,
          by rw [bboxFold_max_lat]; exact le_foldl_max_init _ _,
          by rw [bboxFold_min_lon]; exact foldl_min_le_init _ _,
          by rw [bboxFold_max_lon]; exact le_foldl_max_init _ _⟩
      · exact ⟨by rw [bboxFold_min_lat]; exact foldl_min_le_mem _ _ _ (List.mem_map_of_mem _ hp),
          by rw [bboxFold_max_lat]; exact mem_le_foldl_max _ _ _ (List.mem_map_of_mem _ hp),
          by rw [bboxFold_min_lon]; exact foldl_min_le_mem _ _ _ (List.mem_map_of_mem _ hp),
          by rw [bboxFold_max_lon]; exact mem_le_foldl_max _ _ _ (List.mem_map_of_mem _ hp)⟩
    · refine ⟨?_, ?_, ?_, ?_⟩
      · rw [bboxFold_min_lat]
        rcases foldl_min_eq_or (rest.map Coordinate.lat) seed.min_lat with h | h
        · exact ⟨first, by simp, h.symm⟩
        · obtain ⟨q, hq, hql⟩ := List.mem_map.mp h
          exact ⟨q, by simp [hq], hql⟩
      · rw [bboxFold_max_lat]
        rcases foldl_max_eq_or (rest.map Coordinate.lat) seed.max_lat with h | h
        · exact ⟨first, by simp, h.symm⟩
        · obtain ⟨q, hq, hql⟩ := List.mem_map.mp h
          exact ⟨q, by simp [hq], hql⟩
      · rw [bboxFold_min_lon]
        rcases foldl_min_eq_or (rest.map Coordinate.lon) seed.min_lon with h | h
        · exact ⟨first, by simp, h.symm⟩
        · obtain ⟨q, hq, hql⟩ := List.mem_map.mp h
          exact ⟨q, by simp [hq], hql⟩
      · rw [bboxFold_max_lon]
        rcases foldl_max_eq_or (rest.map Coordinate.lon) seed.max_lon with h | h
        · exact ⟨first, by simp, h.symm⟩
        · obtain ⟨q, hq, hql⟩ := List.mem_map.mp h
          exact ⟨q, by simp [hq], hql⟩

/-- Witness for C9 on a concrete three-point list. -/
theorem bounding_box_spec_witness :
    get_bounding_box ([⟨1, 2⟩, ⟨3, -4⟩, ⟨-5, 6⟩] : List (Coordinate ℚ)) =
      .ok ⟨-5, 3, -4, 6⟩ ∧
    (∀ p ∈ ([⟨1, 2⟩, ⟨3, -4⟩, ⟨-5, 6⟩] : List (Coordinate ℚ)),
      (-5 : ℚ) ≤ p.lat ∧ p.lat ≤ 3 ∧ (-4 : ℚ) ≤ p.lon ∧ p.lon ≤ 6) := by
  have h : get_bounding_box ([⟨1, 2⟩, ⟨3, -4⟩, ⟨-5, 6⟩] : List (Coordinate ℚ)) =
      .ok ⟨-5, 3, -4, 6⟩ := by
    simp only [get_bounding_box, bboxFold]
    norm_num [min_def, max_def]
  refine ⟨h, ?_⟩
  have hall := ((bounding_box_spec.2.2 _ _ h).1)
  intro p hp
  exact hall p hp

/-! ## C1: the precision formula at New York City -/

/-- C1: at (40.7128, -74.0060) `get_actual_precision` succeeds, but the
`total_error_m` computed by the code's own formula is strictly GREATER than
5 (about 5.99 m) — the formula uses the full quantisation cell size, not the
half-cell band, so the claimed bound `< 5.0` (also asserted by the
repository's own `test_precision_info`) is false on the code. -/
theorem precision_nyc_exceeds_five :
    ∃ info, get_actual_precision 40.7128 (-74.0060) = .ok info ∧
      5 < info.total_error_m := by
  have hok : get_actual_precision 40.7128 (-74.0060) = .ok
      ⟨(180 : ℝ) / ((2 ^ LAT_BITS : ℕ) : ℝ) * 111320,
       (360 : ℝ) / ((2 ^ LON_BITS : ℕ) : ℝ) * 111320 *
         Real.cos (40.7128 * (Real.pi / 180)),
       Real.sqrt (((180 : ℝ) / ((2 ^ LAT_BITS : ℕ) : ℝ) * 111320) *
           ((180 : ℝ) / ((2 ^ LAT_BITS : ℕ) : ℝ) * 111320) +
         ((360 : ℝ) / ((2 ^ LON_BITS : ℕ) : ℝ) * 111320 *
             Real.cos (40.7128 * (Real.pi / 180))) *
           ((360 : ℝ) / ((2 ^ LON_BITS : ℕ) : ℝ) * 111320 *
             Real.cos (40.7128 * (Real.pi / 180))))⟩ := by
    rw [get_actual_precision, validate_coordinates_ok (by norm_num) (by norm_num)
      (by norm_num) (by norm_num)]
  refine ⟨_, hok, ?_⟩
  show 5 < Real.sqrt _
  set θ : ℝ := 40.7128 * (Real.pi / 180) with hθdef
  have hθ0 : 0 ≤ θ := by positivity
  have hθ3 : θ ≤ Real.pi / 3 := by
    rw [hθdef]
    nlinarith [Real.pi_pos]
  have hθπ : Real.pi / 3 ≤ Real.pi := by linarith [Real.pi_pos]
  have hcos : 1 / 2 ≤ Real.cos θ := by
    calc (1 / 2 : ℝ) = Real.cos (Real.pi / 3) := Real.cos_pi_div_three.symm
      _ ≤ Real.cos θ := Real.cos_le_cos_of_nonneg_of_le_pi hθ0 hθπ hθ3
  have hsq : (1 / 2 : ℝ) * (1 / 2) ≤ Real.cos θ * Real.cos θ :=
    mul_self_le_mul_self (by norm_num) hcos
  rw [Real.lt_sqrt (by norm_num)]
  norm_num [LAT_BITS, LON_BITS]
  nlinarith [hsq]

/-! ## C2: haversine and scan-loop facts -/

theorem haversine_self (la lo : ℝ) : haversine_distance la lo la lo = 0 := by
  norm_num [haversine_distance, atan2, sub_self, Real.sqrt_one, Real.arctan_zero]

/-- For `0 < t ≤ 1`, `arctan t ≥ t / 2` (via `tan (t/2) ≤ t`). -/
theorem arctan_ge_half {t : ℝ} (h0 : 0 < t) (h1 : t ≤ 1) :
    t / 2 ≤ Real.arctan t := by
  have hπ3 := Real.pi_gt_three
  have ht2 : t / 2 < Real.pi / 2 := by linarith
  have hcos : 1 / 2 ≤ Real.cos (t / 2) := by
    calc (1 / 2 : ℝ) = Real.cos (Real.pi / 3) := Real.cos_pi_div_three.symm
      _ ≤ Real.cos (t / 2) :=
        Real.cos_le_cos_of_nonneg_of_le_pi (by linarith) (by linarith) (by linarith)
  have hsin : Real.sin (t / 2) ≤ t / 2 := Real.sin_le (by linarith)
  have htan : Real.tan (t / 2) ≤ t := by
    rw [Real.tan_eq_sin_div_cos]
    rw [div_le_iff₀ (by linarith : (0 : ℝ) < Real.cos (t / 2))]
    nlinarith
  calc t / 2 = Real.arctan (Real.tan (t / 2)) :=
      (Real.arctan_tan (by linarith) ht2).symm
    _ ≤ Real.arctan t := Real.arctan_strictMono.monotone htan

/-- The cosine of the scan-instance center latitude, in radians, lies in
`[1/2, 1]`. -/
theorem scan_cos_bounds :
    1 / 2 ≤ Real.cos ((180 / 4194303 : ℝ) * Real.pi / 180) ∧
    Real.cos ((180 / 4194303 : ℝ) * Real.pi / 180) ≤ 1 := by
  have harg : (180 / 4194303 : ℝ) * Real.pi / 180 = Real.pi / 4194303 := by ring
  rw [harg]
  constructor
  · calc (1 / 2 : ℝ) = Real.cos (Real.pi / 3) := Real.cos_pi_div_three.symm
      _ ≤ Real.cos (Real.pi / 4194303) :=
        Real.cos_le_cos_of_nonneg_of_le_pi (by positivity)
          (by linarith [Real.pi_pos]) (by linarith [Real.pi_pos])
  · exact Real.cos_le_one _

/-- `encode` at the scan-instance center. -/
theorem scan_center_encode :
    encode (180 / 4194303 : ℝ) (360 / 8388607) false =
      .ok ['G', '0', '0', '0', '4', '0', '0', '0', '0'] := by
  have hfl : ⌊((180 / 4194303 : ℝ) + 90) / 180 * ((LAT_MAX : ℕ) : ℝ)⌋ = 2097152 := by
    rw [Int.floor_eq_iff]
    constructor <;> norm_num [LAT_MAX, LAT_BITS]
  have hfo : ⌊((360 / 8388607 : ℝ) + 180) / 360 * ((LON_MAX : ℕ) : ℝ)⌋ = 4194304 := by
    rw [Int.floor_eq_iff]
    constructor <;> norm_num [LON_MAX, LON_BITS]
  rw [encode_false_eq (by norm_num) (by norm_num) (by norm_num) (by norm_num), hfl, hfo]
  exact congrArg Except.ok (by decide)

/-- `decode` of the scan-instance token. -/
theorem scan_token_decode :
    decode (['G', '0', '0', '0', '4', '0', '0', '0', '0'] : List Char) =
      (.ok ((90 / 4194303 : ℝ), (180 / 8388607 : ℝ)) : Except (Grid9Error ℝ) (ℝ × ℝ)) := by
  have h : (['G', '0', '0', '0', '4', '0', '0', '0', '0'] : List Char) =
      encodeDigits ((2097152 <<< LON_BITS) ||| 4194304) 9 := by decide
  rw [h, decode_encodeDigits (by norm_num [LAT_MAX, LAT_BITS]) (by norm_num [LON_MAX, LON_BITS])]
  norm_num [LAT_MAX, LAT_BITS, LON_MAX, LON_BITS]

theorem scanPts_one (a b s1 s2 : ℝ) : scanPts a b s1 s2 1 1 = [(a, b)] := by
  rw [scanPts, show List.range 1 = [0] from rfl]
  simp

/-- Full evaluation of `find_nearby` at the scan instance: center
`(180/4194303, 360/8388607)` (half a quantisation cell above/right of a
decodable grid point), radius 0.5 m, limit 1.  The single scanned grid point
falls in the same quantisation cell as the center, so its token is the
center's own token, accepted at haversine distance 0. -/
theorem find_nearby_half_meter_eval :
    find_nearby (180 / 4194303) (360 / 8388607) (1 / 2) 1 =
      .ok [['G', '0', '0', '0', '4', '0', '0', '0', '0']] := by
  obtain ⟨hc1, hc2⟩ := scan_cos_bounds
  set cθ := Real.cos ((180 / 4194303 : ℝ) * Real.pi / 180) with hcθdef
  have hcpos : (0 : ℝ) < 111320 * cθ := by nlinarith
  set δ := (1 / 2 : ℝ) / (111320 * cθ) with hδdef
  have hδlo : (1 : ℝ) / 222640 ≤ δ := by
    rw [hδdef, le_div_iff₀ hcpos]
    nlinarith
  have hδhi : δ ≤ 1 / 111320 := by
    rw [hδdef, div_le_iff₀ hcpos]
    nlinarith
  have hδpos : (0 : ℝ) < δ := lt_of_lt_of_le (by norm_num) hδlo
  have hr : ¬((1 / 2 : ℝ) ≤ 0) := by norm_num
  have l1 : max ((180 / 4194303 : ℝ) - 1 / 2 / 111320) (-80) =
      (180 / 4194303 : ℝ) - 1 / 2 / 111320 := max_eq_left (by norm_num)
  have l2 : min ((180 / 4194303 : ℝ) + 1 / 2 / 111320) 80 =
      (180 / 4194303 : ℝ) + 1 / 2 / 111320 := min_eq_left (by norm_num)
  have l3 : max ((360 / 8388607 : ℝ) - δ) (-180) = (360 / 8388607 : ℝ) - δ :=
    max_eq_left (by nlinarith)
  have l4 : min ((360 / 8388607 : ℝ) + δ) 180 = (360 / 8388607 : ℝ) + δ :=
    min_eq_left (by nlinarith)
  have s1 : stepCount ((180 / 4194303 : ℝ) - 1 / 2 / 111320)
      ((180 / 4194303 : ℝ) + 1 / 2 / 111320) (3 / 111320) = 1 := by
    rw [stepCount, if_pos (by norm_num)]
    rw [show ((180 / 4194303 : ℝ) + 1 / 2 / 111320 - (180 / 4194303 - 1 / 2 / 111320)) /
        (3 / 111320) = 1 / 3 from by ring]
    rw [show ⌊(1 / 3 : ℝ)⌋ = 0 from by rw [Int.floor_eq_iff]; norm_num]
    rfl
  have s2 : stepCount ((360 / 8388607 : ℝ) - δ) ((360 / 8388607 : ℝ) + δ)
      (3 / 111320) = 1 := by
    rw [stepCount, if_pos (by nlinarith)]
    rw [show ((360 / 8388607 : ℝ) + δ - (360 / 8388607 - δ)) / (3 / 111320) =
        δ * (222640 / 3) from by ring]
    rw [show ⌊δ * (222640 / 3 : ℝ)⌋ = 0 from by
      rw [Int.floor_eq_iff]
      constructor
      · simp only [Int.cast_zero]
        nlinarith
      · norm_num
        nlinarith]
    rfl
  have pf1 : ⌊(((180 / 4194303 : ℝ) - 1 / 2 / 111320) + 90) / 180 * ((LAT_MAX : ℕ) : ℝ)⌋ =
      2097152 := by
    rw [Int.floor_eq_iff]
    constructor <;> norm_num [LAT_MAX, LAT_BITS]
  have pf2 : ⌊(((360 / 8388607 : ℝ) - δ) + 180) / 360 * ((LON_MAX : ℕ) : ℝ)⌋ = 4194304 := by
    rw [Int.floor_eq_iff]
    constructor
    · norm_num [LON_MAX, LON_BITS]
      nlinarith
    · norm_num [LON_MAX, LON_BITS]
      nlinarith
  have pe : encode ((180 / 4194303 : ℝ) - 1 / 2 / 111320) ((360 / 8388607 : ℝ) - δ) false =
      .ok ['G', '0', '0', '0', '4', '0', '0', '0', '0'] := by
    rw [encode_false_eq (by norm_num) (by norm_num) (by nlinarith) (by nlinarith), pf1, pf2]
    exact congrArg Except.ok (by decide)
  have cd : calculate_distance ['G', '0', '0', '0', '4', '0', '0', '0', '0']
      ['G', '0', '0', '0', '4', '0', '0', '0', '0'] = .ok 0 := by
    simp only [calculate_distance, scan_token_decode, haversine_self]
  have hacc : ((0 : ℝ) ≤ 1 / 2) := by norm_num
  simp only [find_nearby, if_neg hr, scan_center_encode]
  rw [← hδdef]
  rw [l1, l2, l3, l4, s1, s2, scanPts_one]
  simp only [List.filterMap_cons, List.filterMap_nil, pe, cd, if_pos hacc, List.take]

set_option maxHeartbeats 1000000 in
/-- The haversine distance from the scan-instance center to the decoded
point of the returned token exceeds the 0.5 m radius (it is about 3.4 m:
half a cell in each axis). -/
theorem scan_distance_gt_half :
    1 / 2 < haversine_distance (180 / 4194303) (360 / 8388607)
      (90 / 4194303) (180 / 8388607) := by
  have hπ3 := Real.pi_gt_three
  have hπ4 := Real.pi_lt_d2
  have hπ0 := Real.pi_pos
  simp only [haversine_distance, EARTH_RADIUS_M]
  rw [show ((90 / 4194303 : ℝ) - 180 / 4194303) * (Real.pi / 180) / 2 =
        -(Real.pi / 16777212) from by ring,
      show ((180 / 8388607 : ℝ) - 360 / 8388607) * (Real.pi / 180) / 2 =
        -(Real.pi / 16777214) from by ring,
      show (180 / 4194303 : ℝ) * (Real.pi / 180) = Real.pi / 4194303 from by ring,
      show (90 / 4194303 : ℝ) * (Real.pi / 180) = Real.pi / 8388606 from by ring,
      Real.sin_neg, Real.sin_neg, neg_sq, neg_sq]
  set x0 : ℝ := Real.pi / 16777212 with hx0
  set y0 : ℝ := Real.pi / 16777214 with hy0
  set A : ℝ := Real.sin x0 ^ 2 +
      Real.cos (Real.pi / 4194303) * Real.cos (Real.pi / 8388606) * Real.sin y0 ^ 2 with hA
  have hx0pos : 0 < x0 := by rw [hx0]; positivity
  have hx0le : x0 ≤ 1 := by rw [hx0]; linarith
  have hy0pos : 0 < y0 := by rw [hy0]; positivity
  have hy0le : y0 ≤ 1 := by rw [hy0]; linarith
  have hx0small : x0 ≤ 1 / 1000 := by rw [hx0]; linarith
  have hy0small : y0 ≤ 1 / 1000 := by rw [hy0]; linarith
  have hsinx0pos : 0 < Real.sin x0 :=
    Real.sin_pos_of_pos_of_lt_pi hx0pos (by rw [hx0]; linarith)
  have hsinx0le : Real.sin x0 ≤ x0 := Real.sin_le hx0pos.le
  have hsiny0nn : 0 ≤ Real.sin y0 :=
    Real.sin_nonneg_of_nonneg_of_le_pi hy0pos.le (by rw [hy0]; linarith)
  have hsiny0le : Real.sin y0 ≤ y0 := Real.sin_le hy0pos.le
  have hcosa0 : 0 ≤ Real.cos (Real.pi / 4194303) :=
    Real.cos_nonneg_of_mem_Icc ⟨by linarith, by linarith⟩
  have hcosb0 : 0 ≤ Real.cos (Real.pi / 8388606) :=
    Real.cos_nonneg_of_mem_Icc ⟨by linarith, by linarith⟩
  have hcosa1 : Real.cos (Real.pi / 4194303) ≤ 1 := Real.cos_le_one _
  have hcosb1 : Real.cos (Real.pi / 8388606) ≤ 1 := Real.cos_le_one _
  have hprod : 0 ≤ Real.cos (Real.pi / 4194303) * Real.cos (Real.pi / 8388606) *
      Real.sin y0 ^ 2 := mul_nonneg (mul_nonneg hcosa0 hcosb0) (sq_nonneg _)
  have hA_lo : Real.sin x0 ^ 2 ≤ A := by rw [hA]; linarith
  have hcc : Real.cos (Real.pi / 4194303) * Real.cos (Real.pi / 8388606) ≤ 1 :=
    le_trans (mul_le_of_le_one_left hcosb0 hcosa1) hcosb1
  have hs1 : Real.sin x0 ^ 2 ≤ x0 ^ 2 := pow_le_pow_left₀ hsinx0pos.le hsinx0le 2
  have hs2 : Real.sin y0 ^ 2 ≤ y0 ^ 2 := pow_le_pow_left₀ hsiny0nn hsiny0le 2
  have hccs : Real.cos (Real.pi / 4194303) * Real.cos (Real.pi / 8388606) *
      Real.sin y0 ^ 2 ≤ Real.sin y0 ^ 2 := mul_le_of_le_one_left (sq_nonneg _) hcc
  have hA_hi : A ≤ x0 ^ 2 + y0 ^ 2 := by rw [hA]; linarith
  have hx0sq : x0 ^ 2 ≤ (1 / 1000 : ℝ) ^ 2 := pow_le_pow_left₀ hx0pos.le hx0small 2
  have hy0sq : y0 ^ 2 ≤ (1 / 1000 : ℝ) ^ 2 := pow_le_pow_left₀ hy0pos.le hy0small 2
  have hA_nonneg : 0 ≤ A := le_trans (sq_nonneg _) hA_lo
  have hA_half : A < 1 / 2 := by nlinarith
  have h1A : 0 < 1 - A := by linarith
  have hsq1A_pos : 0 < Real.sqrt (1 - A) := Real.sqrt_pos.mpr h1A
  have hsq1A_le1 : Real.sqrt (1 - A) ≤ 1 := Real.sqrt_le_one.mpr (by linarith)
  rw [atan2, if_pos hsq1A_pos]
  have hA_ge : Real.sin x0 ≤ Real.sqrt A :=
    calc Real.sin x0 = Real.sqrt (Real.sin x0 ^ 2) := (Real.sqrt_sq hsinx0pos.le).symm
      _ ≤ Real.sqrt A := Real.sqrt_le_sqrt hA_lo
  have hdiv_ge : Real.sqrt A ≤ Real.sqrt A / Real.sqrt (1 - A) := by
    rw [le_div_iff₀ hsq1A_pos]
    nlinarith [Real.sqrt_nonneg A]
  have harctan1 : Real.arctan (Real.sin x0) ≤
      Real.arctan (Real.sqrt A / Real.sqrt (1 - A)) :=
    Real.arctan_strictMono.monotone (le_trans hA_ge hdiv_ge)
  have hsin1 : Real.sin x0 ≤ 1 := le_trans hsinx0le hx0le
  have harctan2 : Real.sin x0 / 2 ≤ Real.arctan (Real.sin x0) :=
    arctan_ge_half hsinx0pos hsin1
  have hsinlb : x0 - x0 ^ 3 / 4 < Real.sin x0 := Real.sin_gt_sub_cube hx0pos hx0le
  have hx2 : x0 ^ 2 ≤ 1 ^ 2 := pow_le_pow_left₀ hx0pos.le hx0le 2
  have hx3 : x0 ^ 3 ≤ x0 := by
    calc x0 ^ 3 = x0 ^ 2 * x0 := by ring
      _ ≤ 1 ^ 2 * x0 := mul_le_mul_of_nonneg_right hx2 hx0pos.le
      _ = x0 := by ring
  have hsin_ge : (3 / 4 : ℝ) * x0 ≤ Real.sin x0 := by linarith
  have hfinal : 1 / 2 < 6371000 * (3 / 4 : ℝ) * x0 := by rw [hx0]; linarith
  linarith [harctan1, harctan2, hsin_ge, hfinal]

/-- C2 counterexample: at center `(180/4194303, 360/8388607)` (≈ 4.3·10⁻⁵
degrees, half a quantisation cell off a grid point), radius 0.5 m, limit 1,
`find_nearby` succeeds and returns a token whose decoded point is ≈ 3.4 m
from the requested center — strictly farther than the radius.  The code
accepts by haversine distance from the *encoded* center (0 here), not from
`(lat, lon)` itself. -/
theorem find_nearby_containment_violation :
    find_nearby (180 / 4194303) (360 / 8388607) (1 / 2) 1 =
      .ok [['G', '0', '0', '0', '4', '0', '0', '0', '0']] ∧
    decode (['G', '0', '0', '0', '4', '0', '0', '0', '0'] : List Char) =
      (.ok ((90 / 4194303 : ℝ), (180 / 8388607 : ℝ)) : Except (Grid9Error ℝ) (ℝ × ℝ)) ∧
    ¬(haversine_distance (180 / 4194303) (360 / 8388607)
        (90 / 4194303) (180 / 8388607) ≤ 1 / 2) :=
  ⟨find_nearby_half_meter_eval, scan_token_decode, not_le.mpr scan_distance_gt_half⟩

/-- C2 (amended): every token returned by `find_nearby(lat, lon, r, k)`
decodes to a point whose haversine distance from the decoded encoded center
`decode(encode(lat, lon, false))` — the point the code actually measures
from — is at most `r`, and the result count is at most `k`.  (Distance from
the original `(lat, lon)` itself can exceed `r` by the center's quantisation
error; see the counterexample.) -/
theorem find_nearby_containment (clat clon r : ℝ) (k : ℕ) (res : List (List Char))
    (h : find_nearby clat clon r k = .ok res) :
    res.length ≤ k ∧
    ∃ ce clat' clon', encode clat clon false = .ok ce ∧
      decode ce = (.ok (clat', clon') : Except (Grid9Error ℝ) (ℝ × ℝ)) ∧
      ∀ t ∈ res, ∃ p q, decode t = (.ok (p, q) : Except (Grid9Error ℝ) (ℝ × ℝ)) ∧
        haversine_distance clat' clon' p q ≤ r := by
  rw [find_nearby] at h
  by_cases hr : r ≤ 0
  · rw [if_pos hr] at h
    exact Except.noConfusion h
  · rw [if_neg hr] at h
    cases hce : encode clat clon false with
    | error e => rw [hce] at h; exact Except.noConfusion h
    | ok ce =>
      rw [hce] at h
      obtain ⟨h1, h2, h3, h4⟩ := encode_ok_ranges hce
      have hce2 := encode_false_eq h1 h2 h3 h4
      rw [hce] at hce2
      obtain rfl : ce = _ := Except.ok.inj hce2
      have hdec := decode_encodeDigits (α := ℝ)
        (b := min (⌊(clat + 90) / 180 * ((LAT_MAX : ℕ) : ℝ)⌋.toNat) LAT_MAX)
        (c := min (⌊(clon + 180) / 360 * ((LON_MAX : ℕ) : ℝ)⌋.toNat) LON_MAX)
        (min_le_right _ _) (min_le_right _ _)
      obtain rfl : res = _ := (Except.ok.inj h).symm
      refine ⟨List.length_take_le _ _, _, _, _, rfl, hdec, ?_⟩
      intro t ht
      have ht' := List.mem_of_mem_take ht
      obtain ⟨p, hmem, hf⟩ := List.mem_filterMap.mp ht'
      cases henc : encode p.1 p.2 false with
      | error e =>
        rw [henc] at hf
        exact Option.noConfusion hf
      | ok enc =>
        simp only [henc] at hf
        cases hcd : calculate_distance (encodeDigits
            ((min (⌊(clat + 90) / 180 * ((LAT_MAX : ℕ) : ℝ)⌋.toNat) LAT_MAX <<< LON_BITS) |||
              min (⌊(clon + 180) / 360 * ((LON_MAX : ℕ) : ℝ)⌋.toNat) LON_MAX) 9) enc with
        | error e =>
          simp only [hcd] at hf
          exact Option.noConfusion hf
        | ok d =>
          simp only [hcd] at hf
          by_cases hdr : d ≤ r
          · rw [if_pos hdr] at hf
            obtain rfl : enc = t := Option.some.inj hf
            rw [calculate_distance, hdec] at hcd
            cases hdt : (decode enc : Except (Grid9Error ℝ) (ℝ × ℝ)) with
            | error e => rw [hdt] at hcd; exact Except.noConfusion hcd
            | ok pq =>
              obtain ⟨p2, q2⟩ := pq
              rw [hdt] at hcd
              have hd := Except.ok.inj hcd
              exact ⟨p2, q2, rfl, hd.trans_le hdr⟩
          · rw [if_neg hdr] at hf
            exact Option.noConfusion hf

/-- Witness for the amended C2 at the evaluated scan instance. -/
theorem find_nearby_containment_witness :
    find_nearby (180 / 4194303) (360 / 8388607) (1 / 2) 1 =
      .ok [['G', '0', '0', '0', '4', '0', '0', '0', '0']] ∧
    ([['G', '0', '0', '0', '4', '0', '0', '0', '0']] : List (List Char)).length ≤ 1 ∧
    ∃ ce clat' clon', encode (180 / 4194303 : ℝ) (360 / 8388607) false = .ok ce ∧
      decode ce = (.ok (clat', clon') : Except (Grid9Error ℝ) (ℝ × ℝ)) ∧
      ∀ t ∈ ([['G', '0', '0', '0', '4', '0', '0', '0', '0']] : List (List Char)),
        ∃ p q, decode t = (.ok (p, q) : Except (Grid9Error ℝ) (ℝ × ℝ)) ∧
          haversine_distance clat' clon' p q ≤ 1 / 2 := by
  obtain ⟨ha, hb⟩ := find_nearby_containment _ _ _ _ _ find_nearby_half_meter_eval
  exact ⟨find_nearby_half_meter_eval, ha, hb⟩

end Grid9
